import Mathlib

/-!
Verification of the phievse EVSE firmware control kernel.

The Rust sources under `src/firmware/src/` are shallowly embedded: `u32`
arithmetic is modelled with `ℕ` (with explicit `% 2^32` where an overflow is
conceivable, and with side lemmas showing that the saturating `ℕ` subtraction
agrees with `u32` subtraction because no underflow occurs), `i32` arithmetic
with `ℤ` (Rust `/` on `i32` truncates toward zero and is modelled by
`Int.tdiv`), and `unreachable!()`/panicking paths with `Option` (`none` means
the firmware panics).
-/

namespace PhiEvse

/-! ### Control-Pilot duty encoder (`src/firmware/src/control_pilot.rs`) -/

/-- `ControlPilotSignal` from `control_pilot.rs` (`Charge` carries `u32` mA). -/
inductive ControlPilotSignal where
  | Standby
  | Charge (mamps : ℕ)
  | Error
deriving DecidableEq, Repr

/-- `current_to_duty` from `control_pilot.rs` lines 22-30.  The `u32`
subtraction in the middle piece never underflows (see
`current_to_duty_no_underflow`), so `ℕ` subtraction is exact here. -/
def current_to_duty (ma : ℕ) : ℕ :=
  if ma ≤ 5999 then 0
  else if ma ≤ 10999 then 17 * ma / 1000 + 110
  else if ma ≤ 13499 then 5051 + ma * ma / 100 * 368 / 100000 - 837 * ma / 1000
  else if ma ≤ 32000 then 235 * ma / 1000 - 2713
  else 0

/-- `set_control_pilot` from `control_pilot.rs` lines 11-20, restricted to the
duty value it writes to the PWM pin. -/
def set_control_pilot_duty (signal : ControlPilotSignal) : ℕ :=
  match signal with
  | .Standby => 16383
  | .Charge mamps => if 6000 ≤ mamps ∧ mamps ≤ 32000 then current_to_duty mamps else 0
  | .Error => 0

/-- `ControlPilotMode` from `control_pilot.rs`. -/
inductive ControlPilotMode where
  | NotConnected
  | Connected
  | Ready
  | Error
deriving DecidableEq, Repr

/-- `ControlPilotReader::state` from `control_pilot.rs` lines 53-64: the
classifier of the latest peak CP millivolts.  The `Error` mode is never
produced (the `negative_seen` gate is commented out in the source). -/
def cpModeOf (mv : ℕ) : ControlPilotMode :=
  if mv ≤ 50 then .NotConnected
  else if mv ≤ 650 then .Connected
  else .Ready

/-! ### `calculate_power` (`src/firmware/src/lib.rs` lines 437-445) -/

/-- `calculate_power` from `lib.rs`.  `watts * 1000` is `u32` multiplication,
hence the `% 2^32`; the `_ => unreachable!()` arm is modelled by `none`. -/
def calculate_power (watts : ℕ) : Option (ℕ × Bool) :=
  let total_mamps := watts * 1000 % 4294967296 / 230
  if total_mamps ≤ 6499 then some (0, false)
  else if total_mamps ≤ 19999 then some (min total_mamps 16000, false)
  else if total_mamps ≤ 47999 then some (total_mamps / 3, true)
  else none

/-! ### Relay driver (`src/firmware/src/gpio.rs` lines 24-73) -/

/-- The observable state of a `RelayPin`: the PWM duty currently applied to
the coil, the pin's constant `get_max_duty()`, and the `AtomicBool` `state`. -/
structure RelayPin where
  duty : ℕ
  maxDuty : ℕ
  state : Bool
deriving DecidableEq, Repr

/-- `RelayPin::new`: `pin.set_duty(0)` and `state = false`. -/
def RelayPin.new (maxDuty : ℕ) : RelayPin :=
  { duty := 0, maxDuty := maxDuty, state := false }

/-- `RelayPin::set_level` from `gpio.rs` lines 38-63 (without the spawned
helper thread, which is modelled separately by `RelayPin.holdingHelper`). -/
def RelayPin.set_level (r : RelayPin) (level : Bool) : RelayPin :=
  let old := r.state
  let r' : RelayPin := { r with state := level }
  if !level then { r' with duty := 0 }
  else if !old then { r' with duty := r'.maxDuty }
  else r'

/-- The body of the thread spawned 90 ms after an OFF→ON transition
(`gpio.rs` lines 55-61): if the relay is still commanded ON, reduce the duty
to the holding value `get_max_duty() / 100 * RELAY_HOLDING_DUTY` with
`RELAY_HOLDING_DUTY = 85`. -/
def RelayPin.holdingHelper (r : RelayPin) : RelayPin :=
  if r.state then { r with duty := r.maxDuty / 100 * 85 } else r

/-- `RelayPin::level` from `gpio.rs` lines 70-72: `get_duty() > 0`. -/
def RelayPin.level (r : RelayPin) : Bool := decide (0 < r.duty)

/-- The single-writer invariant the relay driver maintains: whenever the
`state` flag is ON, a positive duty is applied. -/
def RelayPin.Inv (r : RelayPin) : Prop := r.state = true → 0 < r.duty


/-! ### A binary-splitting bounded checker for finite-range facts -/

/-- `natRangeAll p d lo hi = true` checks `p m` for every `lo ≤ m < hi`,
recursing on the depth fuel `d` so that kernel evaluation stays shallow. -/
def natRangeAll (p : ℕ → Bool) : ℕ → ℕ → ℕ → Bool
  | 0, _, _ => false
  | d+1, lo, hi =>
    if hi ≤ lo then true
    else if hi = lo + 1 then p lo
    else natRangeAll p d lo ((lo + hi) / 2) && natRangeAll p d ((lo + hi) / 2) hi

theorem natRangeAll_spec (p : ℕ → Bool) :
    ∀ d lo hi, natRangeAll p d lo hi = true → ∀ m, lo ≤ m → m < hi → p m = true := by
  intro d
  induction d with
  | zero => intro lo hi h; simp [natRangeAll] at h
  | succ d ih =>
    intro lo hi h m hlo hhi
    rw [natRangeAll] at h
    by_cases h0 : hi ≤ lo
    · omega
    · rw [if_neg h0] at h
      by_cases h1 : hi = lo + 1
      · rw [if_pos h1] at h
        have hm : m = lo := by omega
        rw [hm]; exact h
      · rw [if_neg h1, Bool.and_eq_true] at h
        rcases Nat.lt_or_ge m ((lo + hi) / 2) with hm | hm
        · exact ih lo ((lo + hi) / 2) h.1 m hlo hm
        · exact ih ((lo + hi) / 2) hi h.2 m hm hhi

/-- The `u32` subtraction inside the middle piece of `current_to_duty` never
underflows, so the `ℕ` model is exact for every input. -/
theorem current_to_duty_no_underflow (ma : ℕ) (h1 : 11000 ≤ ma) (h2 : ma ≤ 13499) :
    837 * ma / 1000 ≤ 5051 + ma * ma / 100 * 368 / 100000 := by
  have h := natRangeAll_spec
    (fun ma => decide (837 * ma / 1000 ≤ 5051 + ma * ma / 100 * 368 / 100000))
    13 11000 13500 (by decide) ma h1 (by omega)
  exact of_decide_eq_true h

/-! ### Claim C1 -/

/-- C1 counterexample: `current_to_duty` is NOT monotone non-decreasing on
`[6000, 32000]`: at the in-range adjacent pair `(11004, 11005)` the duty drops
from 297 to 296 (integer floor effects inside the middle quadratic piece). -/
theorem current_to_duty_not_monotone_at_11004 :
    (6000 ≤ 11004 ∧ 11004 ≤ 11005 ∧ (11005 : ℕ) ≤ 32000) ∧
    ¬ (current_to_duty 11004 ≤ current_to_duty 11005) := by decide

/-- C1 as amended: `current_to_duty` is monotone non-decreasing on each of the
two outer pieces `[6000, 10999]` and `[13500, 32000]` (the middle piece
`[11000, 13499]` has one-unit dips), and every input outside `[6000, 32000]`
yields 0. -/
theorem current_to_duty_outer_mono_and_zero_outside :
    (∀ ma1 ma2 : ℕ, 6000 ≤ ma1 → ma1 ≤ ma2 → ma2 ≤ 10999 →
      current_to_duty ma1 ≤ current_to_duty ma2) ∧
    (∀ ma1 ma2 : ℕ, 13500 ≤ ma1 → ma1 ≤ ma2 → ma2 ≤ 32000 →
      current_to_duty ma1 ≤ current_to_duty ma2) ∧
    (∀ ma : ℕ, ma < 6000 ∨ 32000 < ma → current_to_duty ma = 0) := by
  refine ⟨?_, ?_, ?_⟩
  · intro ma1 ma2 h1 h12 h2
    have e1 : current_to_duty ma1 = 17 * ma1 / 1000 + 110 := by
      unfold current_to_duty; rw [if_neg (by omega), if_pos (by omega)]
    have e2 : current_to_duty ma2 = 17 * ma2 / 1000 + 110 := by
      unfold current_to_duty; rw [if_neg (by omega), if_pos (by omega)]
    rw [e1, e2]
    exact Nat.add_le_add_right (Nat.div_le_div_right (Nat.mul_le_mul_left 17 h12)) 110
  · intro ma1 ma2 h1 h12 h2
    have e1 : current_to_duty ma1 = 235 * ma1 / 1000 - 2713 := by
      unfold current_to_duty
      rw [if_neg (by omega), if_neg (by omega), if_neg (by omega), if_pos (by omega)]
    have e2 : current_to_duty ma2 = 235 * ma2 / 1000 - 2713 := by
      unfold current_to_duty
      rw [if_neg (by omega), if_neg (by omega), if_neg (by omega), if_pos (by omega)]
    rw [e1, e2]
    exact Nat.sub_le_sub_right (Nat.div_le_div_right (Nat.mul_le_mul_left 235 h12)) 2713
  · intro ma h
    rcases h with h | h
    · unfold current_to_duty; rw [if_pos (by omega)]
    · unfold current_to_duty
      rw [if_neg (by omega), if_neg (by omega), if_neg (by omega), if_neg (by omega)]

/-- C1 amended witness at concrete inputs. -/
theorem current_to_duty_outer_mono_witness :
    current_to_duty 6000 ≤ current_to_duty 10000 ∧
    current_to_duty 13500 ≤ current_to_duty 32000 ∧
    current_to_duty 5999 = 0 := by
  refine ⟨?_, ?_, ?_⟩
  · exact current_to_duty_outer_mono_and_zero_outside.1 6000 10000
      (by decide) (by decide) (by decide)
  · exact current_to_duty_outer_mono_and_zero_outside.2.1 13500 32000
      (by decide) (by decide) (by decide)
  · exact current_to_duty_outer_mono_and_zero_outside.2.2 5999 (Or.inl (by decide))

/-! ### Claim C2 -/

/-- C2 counterexample: the spec lists `calculate_power(1495) = (0, false)`,
but `1495 * 1000 / 230 = 6500` exactly, which falls in the second arm, so the
code returns `(6500, false)`. -/
theorem calculate_power_1495_ne_listed :
    calculate_power 1495 ≠ some (0, false) := by decide

/-- C2 as amended: the values `calculate_power` actually returns at the six
listed inputs.  `1495` yields `(6500, false)` (not `(0, false)`: the claimed
value would require the clamp applied upstream), and `4600` yields
`(6666, true)` (`4600 * 1000 / 230 = 20000` lands in the three-phase arm, not
`(16000, false)`).  The other four listed pairs are as claimed. -/
theorem calculate_power_listed_values :
    calculate_power 0 = some (0, false) ∧
    calculate_power 1495 = some (6500, false) ∧
    calculate_power 1500 = some (6521, false) ∧
    calculate_power 3680 = some (16000, false) ∧
    calculate_power 4600 = some (6666, true) ∧
    calculate_power 11000 = some (15942, true) := by decide

/-! ### Claim C8 -/

/-- Shared helper: for any `watts ≤ 11000` (which covers the whole clamped
domain `{0} ∪ [1500, 11000]`), `calculate_power` does not hit its
`unreachable!()` arm. -/
theorem calculate_power_isSome_of_le (watts : ℕ) (h : watts ≤ 11000) :
    (calculate_power watts).isSome = true := by
  have hmod : watts * 1000 % 4294967296 = watts * 1000 := Nat.mod_eq_of_lt (by omega)
  have ht : watts * 1000 % 4294967296 / 230 ≤ 47826 := by rw [hmod]; omega
  unfold calculate_power
  dsimp only
  split
  · rfl
  · split
    · rfl
    · split
      · rfl
      · omega

/-- C8: on the clamped domain `{0} ∪ [1500, 11000]`, `watts * 1000` does not
overflow `u32`, the derived total is at most `47826 ≤ 47999`, and
`calculate_power` never reaches its `unreachable!()` arm. -/
theorem calculate_power_clamped_safe (watts : ℕ)
    (h : watts = 0 ∨ (1500 ≤ watts ∧ watts ≤ 11000)) :
    watts * 1000 < 4294967296 ∧
    watts * 1000 / 230 ≤ 47826 ∧
    (calculate_power watts).isSome = true := by
  have hle : watts ≤ 11000 := by omega
  exact ⟨by omega, by omega, calculate_power_isSome_of_le watts hle⟩

/-- C8 witness at the top of the domain. -/
theorem calculate_power_clamped_safe_witness :
    11000 * 1000 < 4294967296 ∧
    11000 * 1000 / 230 ≤ 47826 ∧
    (calculate_power 11000).isSome = true :=
  calculate_power_clamped_safe 11000 (Or.inr ⟨by decide, by decide⟩)

/-! ### Claim C10 -/

/-- C10 counterexample: with `get_max_duty() = 99 > 0`, after an ON command
and the post-pull-in helper (`99 / 100 * 85 = 0` in integer arithmetic), a
further `set_level(true)` is an ON→ON no-op and `level()` reads `false`. -/
theorem relay_roundtrip_fails_for_small_max_duty :
    0 < (RelayPin.new 99).maxDuty ∧
    ¬ ((((RelayPin.new 99).set_level true).holdingHelper.set_level true).level = true) := by
  decide

/-- C10 as amended: for a `RelayPin` whose PWM pin has `get_max_duty() ≥ 100`
(so the 85 % holding duty is positive; the real pin is 14-bit, max 16383) the
round trip holds: under the driver invariant `state = true → duty > 0`
(established by `new` and preserved by `set_level` and the post-pull-in
helper), `set_level b` followed by `level()` returns `b`. -/
theorem relay_roundtrip_of_max_duty_ge_100 (r : RelayPin) (b : Bool) (d : ℕ)
    (hmax : 100 ≤ r.maxDuty) (hinv : r.Inv) :
    (RelayPin.new d).Inv ∧ (r.set_level b).Inv ∧ r.holdingHelper.Inv ∧
    (r.set_level b).level = b := by
  have hnew : (RelayPin.new d).Inv := by
    intro h; simp [RelayPin.new] at h
  have hhold : r.holdingHelper.Inv := by
    intro h
    unfold RelayPin.holdingHelper at h ⊢
    by_cases hs : r.state = true
    · rw [if_pos hs] at h ⊢
      have h1 : 1 ≤ r.maxDuty / 100 := (Nat.one_le_div_iff (by omega)).mpr hmax
      show 0 < r.maxDuty / 100 * 85
      omega
    · rw [if_neg hs] at h ⊢
      exact hinv h
  have hset : (r.set_level b).Inv ∧ (r.set_level b).level = b := by
    unfold RelayPin.set_level RelayPin.Inv RelayPin.level
    cases b with
    | false => simp
    | true =>
      by_cases hs : r.state
      · simp only [hs, Bool.not_true, Bool.false_eq_true, if_false, if_true]
        have := hinv hs
        simp_all
      · simp only [hs, Bool.not_true, Bool.not_false, if_false, if_true]
        simp_all
        omega
  exact ⟨hnew, hset.1, hhold, hset.2⟩

/-- C10 amended witness on the real 14-bit pin. -/
theorem relay_roundtrip_witness :
    (RelayPin.new 5).Inv ∧ ((RelayPin.new 16383).set_level true).Inv ∧
    (RelayPin.new 16383).holdingHelper.Inv ∧
    ((RelayPin.new 16383).set_level true).level = true :=
  relay_roundtrip_of_max_duty_ge_100 (RelayPin.new 16383) true 5
    (by decide) (by intro h; simp [RelayPin.new] at h)


/-! ### Integer square root (`src/firmware/src/current_meter.rs` lines 34-52) -/

/-- One Newton iteration `x -= (x * x - n) / 2 / x` in `i32` arithmetic
(Rust `/` truncates toward zero, i.e. `Int.tdiv`). -/
def sqrtStep (n x : ℤ) : ℤ := x - ((x * x - n).tdiv 2).tdiv x

/-- `sqrt` from `current_meter.rs`: five Newton iterations seeded at 270
(`if n < 2 { return n }` first). -/
def sqrt (n : ℤ) : ℤ :=
  if n < 2 then n
  else sqrtStep n (sqrtStep n (sqrtStep n (sqrtStep n (sqrtStep n 270))))

/-! ### Current meter (`src/firmware/src/current_meter.rs`) -/

def DEADZONE_MV : ℤ := 70

def WAVELENGTH : ℤ := 200

def WAVELENGTH_ERROR : ℤ := 20

/-- `State` from `current_meter.rs`. -/
inductive MeterState where
  | Calibration
  | Idle
  | WaitingPosEdge (prev_over : Bool)
  | Active (prev_over : Bool)
deriving DecidableEq, Repr

/-- `CurrentMeter` fields (the `stats` atomic pointer is modelled by the
published outputs, and the `f32` factor `rms_mv_to_ma` is applied only to
nonzero publications downstream of everything verified here). -/
structure CurrentMeter where
  vref : ℤ
  count : ℤ
  square_sum : ℤ
  state : MeterState
  min : ℤ
  max : ℤ
deriving DecidableEq, Repr

/-- `CurrentMeter::reset`. -/
def CurrentMeter.reset (m : CurrentMeter) : CurrentMeter :=
  { m with square_sum := 0, count := 0, min := 10000, max := 0 }

/-- A value stored to the meter's atomic cell: `zero` models
`stats.store(0)`; `rms mv` models the store of the scaled RMS value, keeping
the integer `sqrt` result `mv` (the `f32` scale by `CT_RATIO / (SHUNT + extra)`
is outside this integer model). -/
inductive MeterPub where
  | zero
  | rms (mv : ℤ)
deriving DecidableEq, Repr

/-- One sample of `CurrentMeter::process` (`current_meter.rs` lines 108-173).
Returns the new meter, an optional publication, and whether the source hit
`return` (abandoning the rest of the batch). -/
def CurrentMeter.processStep (m : CurrentMeter) (d : ℤ) : CurrentMeter × Option MeterPub × Bool :=
  let over := decide (m.vref + DEADZONE_MV < d)
  let under := decide (d < m.vref - DEADZONE_MV)
  let m1 : CurrentMeter := { m with count := m.count + 1 }
  match m1.state with
  | .WaitingPosEdge prev_over =>
    if WAVELENGTH + WAVELENGTH_ERROR < m1.count then
      (({ m1 with state := .Calibration }).reset, some .zero, true)
    else if prev_over && under then
      ({ m1 with state := .WaitingPosEdge false }, none, false)
    else if !prev_over && over then
      (({ m1 with state := .Active true }).reset, none, false)
    else (m1, none, false)
  | .Active prev_over =>
    let m2 : CurrentMeter := { m1 with square_sum := m1.square_sum + (d - m1.vref) ^ 2 }
    if WAVELENGTH + WAVELENGTH_ERROR < m2.count then
      (({ m2 with state := .Calibration }).reset, some .zero, true)
    else if prev_over && under then
      ({ m2 with state := .Active false }, none, false)
    else if !prev_over && over then
      if m2.count < WAVELENGTH - WAVELENGTH_ERROR then
        (({ m2 with state := .Calibration }).reset, some .zero, true)
      else
        (({ m2 with state := .Active true }).reset,
         some (.rms (sqrt (m2.square_sum.tdiv m2.count))), false)
    else (m2, none, false)
  | _ => (m1, none, false)

/-- `CurrentMeter::process` over a batch, honouring the early `return`. -/
def CurrentMeter.processList (m : CurrentMeter) : List ℤ → CurrentMeter × List MeterPub
  | [] => (m, [])
  | d :: rest =>
    match m.processStep d with
    | (m', pub, true) => (m', pub.toList)
    | (m', pub, false) =>
      let (m'', pubs) := m'.processList rest
      (m'', pub.toList ++ pubs)

/-! ### Claim C7 -/

/-- C7: in `WaitingPosEdge` and `Active`, if the per-wave sample count
exceeds `WAVELENGTH + WAVELENGTH_ERROR = 220`, or if (in `Active`) the
closing positive edge arrives with fewer than
`WAVELENGTH - WAVELENGTH_ERROR = 180` samples, the meter publishes 0 mA,
abandons the batch, and returns to `Calibration` with its accumulators
reset. -/
theorem meter_bad_wave_publishes_zero (m : CurrentMeter) (d : ℤ) (p : Bool)
    (hstate : m.state = .WaitingPosEdge p ∨ m.state = .Active p) :
    (220 < m.count + 1 →
      m.processStep d =
        ({ m with count := 0, square_sum := 0, min := 10000, max := 0,
                  state := .Calibration }, some .zero, true)) ∧
    (m.state = .Active p → m.count + 1 ≤ 220 → p = false → m.vref + DEADZONE_MV < d →
      m.count + 1 < 180 →
      m.processStep d =
        ({ m with count := 0, square_sum := 0, min := 10000, max := 0,
                  state := .Calibration }, some .zero, true)) := by
  constructor
  · intro hlong
    rcases hstate with hs | hs <;>
    · unfold CurrentMeter.processStep
      dsimp only
      rw [hs]
      dsimp only [CurrentMeter.reset]
      rw [if_pos (by unfold WAVELENGTH WAVELENGTH_ERROR; omega)]
  · intro hact hshort hp hover hlt
    subst hp
    unfold CurrentMeter.processStep
    dsimp only
    rw [hact]
    dsimp only [CurrentMeter.reset]
    rw [if_neg (by unfold WAVELENGTH WAVELENGTH_ERROR; omega)]
    simp only [Bool.false_and, Bool.false_eq_true, if_false, Bool.not_false, Bool.true_and]
    rw [if_pos (by simpa using hover), if_pos (by unfold WAVELENGTH WAVELENGTH_ERROR; omega)]

/-- C7 witness: a concrete 221st sample in `WaitingPosEdge` resets to
`Calibration` with a 0 publication, and a concrete early closing edge in
`Active` (101 samples, reading 1300 mV over a 1200 mV reference) does too. -/
theorem meter_bad_wave_witness :
    (⟨1200, 220, 5, .WaitingPosEdge false, 10000, 0⟩ : CurrentMeter).processStep 0 =
      ({ (⟨1200, 220, 5, .WaitingPosEdge false, 10000, 0⟩ : CurrentMeter) with
          count := 0, square_sum := 0, min := 10000, max := 0,
          state := .Calibration }, some .zero, true) ∧
    (⟨1200, 100, 50, .Active false, 10000, 0⟩ : CurrentMeter).processStep 1300 =
      ({ (⟨1200, 100, 50, .Active false, 10000, 0⟩ : CurrentMeter) with
          count := 0, square_sum := 0, min := 10000, max := 0,
          state := .Calibration }, some .zero, true) := by
  constructor
  · exact (meter_bad_wave_publishes_zero
      ⟨1200, 220, 5, .WaitingPosEdge false, 10000, 0⟩ 0 false (Or.inl rfl)).1 (by decide)
  · exact (meter_bad_wave_publishes_zero
      ⟨1200, 100, 50, .Active false, 10000, 0⟩ 1300 false (Or.inr rfl)).2 rfl
      (by decide) rfl (by decide) (by decide)


/-! ### Charging controller (`src/firmware/src/lib.rs`)

The 10 Hz loop body of `PhiEvseController::run` (lines 204-433) is embedded
as a step function on an explicit state record.  Peripheral effects are
recorded as a list of `Action`s; the relay `level()` reads that the loop
performs are tracked in `relay3_level` / `relay_main_level` (exact whenever
`get_max_duty() ≥ 100`, see the relay driver section).  `unreachable!()` is
modelled by `none`.  The `i` tick counter (used only to rate-limit a log
line) and the log calls themselves are not modelled. -/

/-- `PhiEvseState` from `lib.rs`. -/
inductive PhiEvseState where
  | NotConnected
  | Connected
  | Ready
  | Charging
  | Error
  | Stopping
  | ShuttingDown
  | Shutdown
deriving DecidableEq, Repr

/-- `ControlMessage` from `lib.rs` (`SetMaxPower` carries `u32` watts). -/
inductive ControlMessage where
  | SetMaxPower (watts : ℕ)
  | Shutdown
deriving DecidableEq, Repr

/-- A peripheral effect of one tick.  `relayMain`/`relay3Phase` carry the
commanded level and whether the blocking `set_level_and_wait` variant was
used. -/
inductive Action where
  | watchdogReset
  | watchdogStop
  | setCP (signal : ControlPilotSignal)
  | relayMain (level : Bool) (wait : Bool)
  | relay3Phase (level : Bool) (wait : Bool)
deriving DecidableEq, Repr

/-- The controller state: the fields of `PhiEvseController` that the loop
reads or writes, the loop-local `mut` variables of `run`, the tracked relay
levels, and the published `PhiEvseStatus` record. -/
structure Ctrl where
  state : PhiEvseState
  max_power : ℕ
  max_current : ℕ
  three_phase : Bool
  current_adjustment : ℤ
  changing_power : Bool
  next_current_adjustment : ℤ
  stop_timeout : ℤ
  prev_state : PhiEvseState
  relay3_level : Bool
  relay_main_level : Bool
  status_power : ℕ
  status_state : PhiEvseState
  status_max_power : ℕ
deriving DecidableEq, Repr

/-- One tick's inputs: the drained command (if any), the CP millivolt peak
behind `control_pilot.state()`, the three phase-current atomics, and
`pilot_negative.is_high()`. -/
structure Input where
  cmd : Option ControlMessage
  cp_mv : ℕ
  currents : ℕ × ℕ × ℕ
  pilot_neg_high : Bool
deriving DecidableEq, Repr

/-- `self.current.iter().map(load).sum()`. -/
def sum3 (c : ℕ × ℕ × ℕ) : ℕ := c.1 + c.2.1 + c.2.2

/-- The `as u32` cast of an `i32` value (`(max_current as i32 + adj) as u32`). -/
def u32ofI32 (x : ℤ) : ℕ := (x % 4294967296).toNat

/-- The clamping idiom `if adj.abs() > 1000 { adj = adj.signum() * 1000 }`
applied after an adjustment. -/
def clampAdj (a : ℤ) : ℤ := if 1000 < |a| then a.sign * 1000 else a

/-- The controller state at entry to the loop: `PhiEvseController::new`
(lines 137-153) plus the `let mut` initialisations of `run` (lines 199-203).
Both relays start open (`RelayPin::new` applies duty 0). -/
def initCtrl : Ctrl where
  state := .NotConnected
  max_power := 0
  max_current := 0
  three_phase := false
  current_adjustment := 0
  changing_power := false
  next_current_adjustment := 0
  stop_timeout := 0
  prev_state := .NotConnected
  relay3_level := false
  relay_main_level := false
  status_power := 0
  status_state := .NotConnected
  status_max_power := 0

/-- Command drain (`lib.rs` lines 209-236).  `SetMaxPower` clamps the watts
to `{0} ∪ [1500, 11000]`, publishes `status.max_power`, and derives
`(max_current, three_phase)`; a `calculate_power` panic propagates as `none`.
`Shutdown` moves `Charging` to `ShuttingDown` (with `stop_timeout = 50`) and
everything else straight to `Shutdown`. -/
def applyCommand (s : Ctrl) (cmd : Option ControlMessage) : Option Ctrl :=
  match cmd with
  | none => some s
  | some (.SetMaxPower watts) =>
    let mp := if watts ≤ 1499 then 0 else if watts ≤ 11000 then watts else 11000
    match calculate_power mp with
    | none => none
    | some (mc, tp) =>
      some { s with max_power := mp, status_max_power := mp,
                    max_current := mc, three_phase := tp, changing_power := true }
  | some .Shutdown =>
    if s.state = .Charging then some { s with state := .ShuttingDown, stop_timeout := 50 }
    else some { s with state := .Shutdown }

/-- The safety pre-check (`lib.rs` lines 238-246): a low CP negative rail
forces `Error`.  (A `CpMode::Error` is only logged, and in fact the
classifier never produces it.) -/
def applySafety (s : Ctrl) (i : Input) : Ctrl :=
  if i.pilot_neg_high then s else { s with state := .Error }

/-- The controller state as seen by the per-state body of the tick: after
the command drain and the safety pre-check. -/
def preBody (s : Ctrl) (i : Input) : Option Ctrl :=
  (applyCommand s i.cmd).map (fun s1 => applySafety s1 i)

/-- The `NotConnected | Connected` arm of the tick body (`lib.rs` lines
249-267). -/
def ncBody (s : Ctrl) (cp : ControlPilotMode) : Ctrl × List Action :=
  let s1 : Ctrl := { s with state :=
    match cp with
    | .NotConnected => .NotConnected
    | .Connected => .Connected
    | .Ready => .Ready
    | .Error => .Error }
  if s1.changing_power ∧ s1.state = .Connected then
    if 6000 < s1.max_current then
      (s1, [.setCP (.Charge (u32ofI32 ((s1.max_current : ℤ) + s1.current_adjustment)))])
    else
      (s1, [.setCP .Standby])
  else (s1, [])

/-- The `Ready` arm of the tick body (`lib.rs` lines 268-278). -/
def readyBody (s : Ctrl) : Ctrl × List Action :=
  if 6000 < s.max_current then
    ({ s with relay3_level := s.three_phase, relay_main_level := true,
              state := .Charging },
     [.relay3Phase s.three_phase true, .relayMain true false])
  else (s, [])

/-- The `Charging` arm of the tick body (`lib.rs` lines 279-362). -/
def chargingBody (s : Ctrl) (cp : ControlPilotMode) (total : ℕ) : Ctrl × List Action :=
  let (s1, acts) :=
    if s.changing_power then
      let acts := [Action.setCP (.Charge (u32ofI32 ((s.max_current : ℤ) + s.current_adjustment)))]
      let s1 : Ctrl := { s with next_current_adjustment := 50 }
      if s1.three_phase ≠ s1.relay3_level then
        ({ s1 with relay3_level := s1.three_phase, next_current_adjustment := 100 },
         acts ++ [.relay3Phase s1.three_phase false])
      else (s1, acts)
    else (s, [])
  let s2 : Ctrl := { s1 with status_power := total * 230 / 1000 }
  if s2.next_current_adjustment = 0 then
    if cp ≠ .Ready then
      ({ s2 with state := .Stopping, stop_timeout := 50 }, acts)
    else
      let phases := if s2.three_phase then 3 else 1
      let mamps_per_phase := total / phases
      let current_diff : ℤ := (s2.max_current : ℤ) - (mamps_per_phase : ℤ)
      if mamps_per_phase < 1000 then
        ({ s2 with next_current_adjustment := s2.next_current_adjustment + 1 }, acts)
      else if s2.max_current + 4000 < mamps_per_phase then
        ({ s2 with state := .Error }, acts)
      else if mamps_per_phase < 6500 then
        let adj := clampAdj (s2.current_adjustment + 500)
        ({ s2 with current_adjustment := adj, next_current_adjustment := 30 },
         acts ++ [.setCP (.Charge (u32ofI32 ((s2.max_current : ℤ) + adj)))])
      else if 500 < |current_diff| then
        let adj := clampAdj (s2.current_adjustment + current_diff.sign * 300)
        ({ s2 with current_adjustment := adj, next_current_adjustment := 30 },
         acts ++ [.setCP (.Charge (u32ofI32 ((s2.max_current : ℤ) + adj)))])
      else (s2, acts)
  else
    ({ s2 with next_current_adjustment := s2.next_current_adjustment - 1 }, acts)

/-- The `Stopping | ShuttingDown` arm of the tick body (`lib.rs` lines
363-384); `none` is the `unreachable!()` on a `Ready` CP read. -/
def stoppingBody (s : Ctrl) (cp : ControlPilotMode) (total : ℕ) : Option (Ctrl × List Action) :=
  if total = 0 ∨ s.stop_timeout ≤ 0 then
    let s1 : Ctrl := { s with relay_main_level := false, relay3_level := false }
    let acts := [Action.relayMain false true, Action.relay3Phase false false]
    if s1.state = .Stopping then
      match cp with
      | .NotConnected => some ({ s1 with state := .NotConnected }, acts)
      | .Connected => some ({ s1 with state := .Connected }, acts)
      | .Ready => none
      | .Error => some ({ s1 with state := .Error }, acts)
    else some ({ s1 with state := .Shutdown }, acts)
  else
    some ({ s with stop_timeout := s.stop_timeout - 1 }, [])

/-- The per-state body of the tick (`lib.rs` lines 248-392).  Produces the
updated state and the peripheral actions of the body, or `none` when the
`unreachable!()` in the `Stopping` arm is hit. -/
def runBody (s : Ctrl) (cp : ControlPilotMode) (total : ℕ) : Option (Ctrl × List Action) :=
  match s.state with
  | .NotConnected | .Connected => some (ncBody s cp)
  | .Ready => some (readyBody s)
  | .Charging => some (chargingBody s cp total)
  | .Stopping | .ShuttingDown => stoppingBody s cp total
  | .Error =>
    if cp = .NotConnected then some ({ s with state := .NotConnected }, [])
    else some (s, [])
  | .Shutdown => some (s, [])

/-- The entry actions on a state change (`lib.rs` lines 396-430), including
the `status.state` publication and the `prev_state` update. -/
def entryActions (s : Ctrl) : Ctrl × List Action :=
  if s.prev_state ≠ s.state then
    let (s1, acts) : Ctrl × List Action :=
      match s.state with
      | .NotConnected => (s, [Action.setCP .Standby])
      | .Connected =>
        let sc : Ctrl := { s with current_adjustment := 1000 }
        if 6000 < sc.max_current then
          (sc, [.setCP (.Charge (u32ofI32 ((sc.max_current : ℤ) + sc.current_adjustment)))])
        else (sc, [])
      | .Ready => (s, [])
      | .Charging => (s, [])
      | .Error =>
        ({ s with relay_main_level := false, relay3_level := false },
         [.setCP .Error, .relayMain false true, .relay3Phase false false])
      | .Stopping | .ShuttingDown => (s, [.setCP .Standby])
      | .Shutdown => (s, [.watchdogStop])
    ({ s1 with status_state := s1.state, prev_state := s1.state }, acts)
  else (s, [])

/-- One full tick of the loop: watchdog kick, command drain, safety check,
per-state body, `changing_power` reset, entry actions. -/
def step (s : Ctrl) (i : Input) : Option (Ctrl × List Action) :=
  match preBody s i with
  | none => none
  | some s2 =>
    match runBody s2 (cpModeOf i.cp_mv) (sum3 i.currents) with
    | none => none
    | some (s3, acts) =>
      let s4 : Ctrl := { s3 with changing_power := false }
      let (s5, acts2) := entryActions s4
      some (s5, Action.watchdogReset :: (acts ++ acts2))

/-- States the controller can be in at a tick boundary. -/
inductive Reachable : Ctrl → Prop where
  | init : Reachable initCtrl
  | tick {s : Ctrl} {i : Input} {s' : Ctrl} {acts : List Action} :
      Reachable s → step s i = some (s', acts) → Reachable s'

/-- Run the controller over a finite input trace; `none` means some tick
panicked. -/
def stepTrace (s : Ctrl) : List Input → Option Ctrl
  | [] => some s
  | i :: rest =>
    match step s i with
    | none => none
    | some (s', _) => stepTrace s' rest


/-! ### Controller helper lemmas -/

theorem clampAdj_bounds (a : ℤ) : -1000 ≤ clampAdj a ∧ clampAdj a ≤ 1000 := by
  unfold clampAdj
  split
  · rcases Int.lt_trichotomy a 0 with h | h | h
    · rw [Int.sign_eq_neg_one_of_neg h]; omega
    · subst h; simp
    · rw [Int.sign_eq_one_of_pos h]; omega
  · next h =>
      rw [not_lt] at h
      rw [abs_le] at h
      exact h

theorem applyCommand_isSome (s : Ctrl) (cmd : Option ControlMessage) :
    (applyCommand s cmd).isSome = true := by
  cases cmd with
  | none => rfl
  | some msg =>
    cases msg with
    | Shutdown =>
      dsimp only [applyCommand]
      split <;> rfl
    | SetMaxPower watts =>
      dsimp only [applyCommand]
      have hmp : (if watts ≤ 1499 then 0 else if watts ≤ 11000 then watts else 11000) ≤ 11000 := by
        split
        · omega
        · split <;> omega
      have hs := calculate_power_isSome_of_le _ hmp
      cases hcp : calculate_power (if watts ≤ 1499 then 0 else if watts ≤ 11000 then watts else 11000) with
      | none => rw [hcp] at hs; simp at hs
      | some v =>
        obtain ⟨mc, tp⟩ := v
        rfl

theorem preBody_isSome (s : Ctrl) (i : Input) : (preBody s i).isSome = true := by
  unfold preBody
  have h := applyCommand_isSome s i.cmd
  cases hc : applyCommand s i.cmd with
  | none => rw [hc] at h; simp at h
  | some s1 => rfl

theorem stoppingBody_none (s : Ctrl) (cp : ControlPilotMode) (total : ℕ)
    (h : stoppingBody s cp total = none) : s.state = .Stopping ∧ cp = .Ready := by
  unfold stoppingBody at h
  dsimp only at h
  split at h
  · by_cases hst : s.state = PhiEvseState.Stopping
    · rw [if_pos hst] at h
      cases cp
      · exact Option.noConfusion h
      · exact Option.noConfusion h
      · exact ⟨hst, rfl⟩
      · exact Option.noConfusion h
    · rw [if_neg hst] at h
      exact Option.noConfusion h
  · exact Option.noConfusion h

theorem runBody_none (s : Ctrl) (cp : ControlPilotMode) (total : ℕ)
    (h : runBody s cp total = none) : s.state = .Stopping ∧ cp = .Ready := by
  unfold runBody at h
  cases hs : s.state <;> rw [hs] at h <;> dsimp only at h
  case Stopping | ShuttingDown =>
    have h2 := stoppingBody_none _ _ _ h
    rw [hs] at h2
    exact ⟨h2.1, h2.2⟩
  case Error => split at h <;> exact Option.noConfusion h
  all_goals exact Option.noConfusion h

/-! ### Claim C3 -/

/-- C3 counterexample: a concrete four-tick input trace from the initial
state reaches the `unreachable!()` in the `Stopping` arm and panics: set 11 kW,
see CP at 1300 mV (Ready), start charging, see CP at 450 mV (the EV requests a
stop), then see CP at 1300 mV again with zero measured current while the
relays are being opened. -/
theorem stopping_unreachable_is_reachable :
    stepTrace initCtrl
      [⟨some (.SetMaxPower 11000), 1300, (0, 0, 0), true⟩,
       ⟨none, 1300, (0, 0, 0), true⟩,
       ⟨none, 450, (0, 0, 0), true⟩,
       ⟨none, 1300, (0, 0, 0), true⟩] = none := by decide

/-- C3 as amended: the `unreachable!()` branch in the `Stopping` arm is the
only panic of the tick, and it executes exactly on ticks whose CP mode read
is `Ready`; so the controller cannot panic on any trace in which the CP mode
never reads `Ready` while `Stopping` opens the relays, but it does panic on
traces where that happens (see the counterexample). -/
theorem step_none_implies_cp_ready (s : Ctrl) (i : Input) (h : step s i = none) :
    cpModeOf i.cp_mv = .Ready := by
  unfold step at h
  cases hpb : preBody s i with
  | none =>
    have hs := preBody_isSome s i
    rw [hpb] at hs; simp at hs
  | some s2 =>
    rw [hpb] at h
    dsimp only at h
    cases hrb : runBody s2 (cpModeOf i.cp_mv) (sum3 i.currents) with
    | none => exact (runBody_none _ _ _ hrb).2
    | some pr =>
      obtain ⟨s3, acts⟩ := pr
      rw [hrb] at h
      simp at h

/-- C3 amended witness: at the concrete pre-panic state of the counterexample
trace, the panicking tick indeed read CP mode `Ready` (1300 mV). -/
theorem step_none_cp_ready_witness : cpModeOf 1300 = .Ready :=
  step_none_implies_cp_ready
    { state := .Stopping, max_power := 11000, max_current := 15942,
      three_phase := true, current_adjustment := 0, changing_power := false,
      next_current_adjustment := 0, stop_timeout := 50, prev_state := .Stopping,
      relay3_level := true, relay_main_level := true, status_power := 0,
      status_state := .Stopping, status_max_power := 11000 }
    ⟨none, 1300, (0, 0, 0), true⟩ (by decide)


/-! ### Field-preservation lemmas for the tick phases -/

theorem applyCommand_keeps (s s1 : Ctrl) (cmd : Option ControlMessage)
    (h : applyCommand s cmd = some s1) :
    s1.current_adjustment = s.current_adjustment ∧ s1.prev_state = s.prev_state := by
  cases cmd with
  | none =>
    simp only [applyCommand, Option.some.injEq] at h
    rw [← h]; exact ⟨rfl, rfl⟩
  | some msg =>
    cases msg with
    | SetMaxPower watts =>
      dsimp only [applyCommand] at h
      cases hcp : calculate_power
          (if watts ≤ 1499 then 0 else if watts ≤ 11000 then watts else 11000) with
      | none => rw [hcp] at h; exact Option.noConfusion h
      | some v =>
        obtain ⟨mc, tp⟩ := v
        rw [hcp] at h
        simp only [Option.some.injEq] at h
        rw [← h]; exact ⟨rfl, rfl⟩
    | Shutdown =>
      dsimp only [applyCommand] at h
      split at h <;> (simp only [Option.some.injEq] at h; rw [← h]; exact ⟨rfl, rfl⟩)

theorem applySafety_keeps (s : Ctrl) (i : Input) :
    (applySafety s i).current_adjustment = s.current_adjustment ∧
    (applySafety s i).prev_state = s.prev_state := by
  unfold applySafety
  split <;> exact ⟨rfl, rfl⟩

theorem ncBody_keeps (s : Ctrl) (cp : ControlPilotMode) :
    (ncBody s cp).1.current_adjustment = s.current_adjustment ∧
    (ncBody s cp).1.prev_state = s.prev_state := by
  unfold ncBody
  dsimp only
  split
  · split <;> exact ⟨rfl, rfl⟩
  · exact ⟨rfl, rfl⟩

theorem readyBody_keeps (s : Ctrl) :
    (readyBody s).1.current_adjustment = s.current_adjustment ∧
    (readyBody s).1.prev_state = s.prev_state := by
  unfold readyBody
  split <;> exact ⟨rfl, rfl⟩

theorem chargingBody_keeps (s : Ctrl) (cp : ControlPilotMode) (total : ℕ) :
    ((chargingBody s cp total).1.current_adjustment = s.current_adjustment ∨
      (∃ a, (chargingBody s cp total).1.current_adjustment = clampAdj a)) ∧
    (chargingBody s cp total).1.prev_state = s.prev_state := by
  unfold chargingBody
  dsimp only
  by_cases hch : s.changing_power = true
  · rw [if_pos hch]
    by_cases h3 : s.three_phase ≠ s.relay3_level
    · rw [if_pos h3]
      dsimp only
      rw [if_neg (by decide : ¬ ((100 : ℤ) = 0))]
      exact ⟨Or.inl rfl, rfl⟩
    · rw [if_neg h3]
      dsimp only
      rw [if_neg (by decide : ¬ ((50 : ℤ) = 0))]
      exact ⟨Or.inl rfl, rfl⟩
  · rw [if_neg hch]
    dsimp only
    repeat' split
    all_goals first
      | exact ⟨Or.inl rfl, rfl⟩
      | exact ⟨Or.inr ⟨_, rfl⟩, rfl⟩

theorem stoppingBody_keeps (s s' : Ctrl) (cp : ControlPilotMode) (total : ℕ)
    (acts : List Action) (h : stoppingBody s cp total = some (s', acts)) :
    s'.current_adjustment = s.current_adjustment ∧ s'.prev_state = s.prev_state := by
  unfold stoppingBody at h
  dsimp only at h
  split at h
  · split at h
    · cases cp <;>
        first
          | exact Option.noConfusion h
          | (simp only [Option.some.injEq, Prod.mk.injEq] at h
             rw [← h.1]; exact ⟨rfl, rfl⟩)
    · simp only [Option.some.injEq, Prod.mk.injEq] at h
      rw [← h.1]; exact ⟨rfl, rfl⟩
  · simp only [Option.some.injEq, Prod.mk.injEq] at h
    rw [← h.1]; exact ⟨rfl, rfl⟩

theorem runBody_keeps (s s' : Ctrl) (cp : ControlPilotMode) (total : ℕ)
    (acts : List Action) (h : runBody s cp total = some (s', acts)) :
    (s'.current_adjustment = s.current_adjustment ∨
      (∃ a, s'.current_adjustment = clampAdj a)) ∧
    s'.prev_state = s.prev_state := by
  unfold runBody at h
  cases hs : s.state <;> rw [hs] at h <;> dsimp only at h
  case NotConnected | Connected =>
    simp only [Option.some.injEq] at h
    have h1 := congrArg Prod.fst h
    dsimp only at h1
    rw [← h1]
    exact ⟨Or.inl (ncBody_keeps s cp).1, (ncBody_keeps s cp).2⟩
  case Ready =>
    simp only [Option.some.injEq] at h
    have h1 := congrArg Prod.fst h
    dsimp only at h1
    rw [← h1]
    exact ⟨Or.inl (readyBody_keeps s).1, (readyBody_keeps s).2⟩
  case Charging =>
    simp only [Option.some.injEq] at h
    have h1 := congrArg Prod.fst h
    dsimp only at h1
    rw [← h1]
    exact ⟨(chargingBody_keeps s cp total).1, (chargingBody_keeps s cp total).2⟩
  case Stopping | ShuttingDown =>
    have h2 := stoppingBody_keeps s s' cp total acts h
    exact ⟨Or.inl h2.1, h2.2⟩
  case Error =>
    split at h <;>
      (simp only [Option.some.injEq, Prod.mk.injEq] at h
       rw [← h.1]; exact ⟨Or.inl rfl, rfl⟩)
  case Shutdown =>
    simp only [Option.some.injEq, Prod.mk.injEq] at h
    rw [← h.1]; exact ⟨Or.inl rfl, rfl⟩

theorem entryActions_fst (s : Ctrl) :
    (entryActions s).1.state = s.state ∧
    ((entryActions s).1.current_adjustment = s.current_adjustment ∨
      (entryActions s).1.current_adjustment = 1000) ∧
    (entryActions s).1.prev_state = (entryActions s).1.state := by
  unfold entryActions
  split
  · cases hs : s.state <;> dsimp only
    case Connected => split <;> exact ⟨rfl, Or.inr rfl, rfl⟩
    case Error => exact ⟨rfl, Or.inl rfl, rfl⟩
    all_goals exact ⟨hs, Or.inl rfl, rfl⟩
  · next hne =>
    rw [not_not] at hne
    exact ⟨rfl, Or.inl rfl, hne⟩


theorem preBody_keeps (s : Ctrl) (i : Input) (s2 : Ctrl) (h : preBody s i = some s2) :
    s2.current_adjustment = s.current_adjustment ∧ s2.prev_state = s.prev_state := by
  unfold preBody at h
  cases hac : applyCommand s i.cmd with
  | none => rw [hac] at h; exact Option.noConfusion h
  | some s1 =>
    rw [hac] at h
    dsimp only [Option.map] at h
    simp only [Option.some.injEq] at h
    have hk := applyCommand_keeps s s1 i.cmd hac
    have hk2 := applySafety_keeps s1 i
    rw [← h]
    exact ⟨hk2.1.trans hk.1, hk2.2.trans hk.2⟩

theorem step_keeps (s : Ctrl) (i : Input) (s' : Ctrl) (acts : List Action)
    (h : step s i = some (s', acts)) :
    (s'.current_adjustment = s.current_adjustment ∨ s'.current_adjustment = 1000 ∨
      ∃ a, s'.current_adjustment = clampAdj a) ∧
    s'.prev_state = s'.state := by
  unfold step at h
  cases hpb : preBody s i with
  | none => rw [hpb] at h; exact Option.noConfusion h
  | some s2 =>
    rw [hpb] at h
    dsimp only at h
    cases hrb : runBody s2 (cpModeOf i.cp_mv) (sum3 i.currents) with
    | none => rw [hrb] at h; exact Option.noConfusion h
    | some pr =>
      obtain ⟨s3, acts1⟩ := pr
      rw [hrb] at h
      dsimp only at h
      rcases hea : entryActions { s3 with changing_power := false } with ⟨s5, acts2⟩
      rw [hea] at h
      dsimp only at h
      simp only [Option.some.injEq, Prod.mk.injEq] at h
      obtain ⟨h5, -⟩ := h
      have hef := entryActions_fst ({ s3 with changing_power := false } : Ctrl)
      rw [hea] at hef
      dsimp only at hef
      constructor
      · rcases hef.2.1 with he | he
        · -- s5 keeps the adjustment of s4 = s3
          rcases (runBody_keeps s2 s3 _ _ _ hrb).1 with h3 | ⟨a, h3⟩
          · left
            rw [← h5, he]
            show s3.current_adjustment = s.current_adjustment
            rw [h3, (preBody_keeps s i s2 hpb).1]
          · right; right
            exact ⟨a, by rw [← h5, he]; exact h3⟩
        · right; left; rw [← h5]; exact he
      · rw [← h5]; exact hef.2.2

/-! ### Claim C4 -/

/-- C4: `current_adjustment` starts at 0 and stays in `[-1000, 1000]` at every
tick boundary: each `Charging` adjustment is clamped by the
`abs > 1000 → signum * 1000` idiom immediately, and the `Connected` entry
action writes exactly `+1000`. -/
theorem current_adjustment_in_range :
    initCtrl.current_adjustment = 0 ∧
    ∀ s : Ctrl, Reachable s →
      -1000 ≤ s.current_adjustment ∧ s.current_adjustment ≤ 1000 := by
  refine ⟨rfl, ?_⟩
  intro s h
  induction h with
  | init => exact ⟨by decide, by decide⟩
  | tick hr hstep ih =>
    rcases (step_keeps _ _ _ _ hstep).1 with h1 | h1 | ⟨a, h1⟩ <;> rw [h1]
    · exact ih
    · exact ⟨by decide, by decide⟩
    · exact clampAdj_bounds a

/-- C4 witness at the initial state. -/
theorem current_adjustment_in_range_witness :
    initCtrl.current_adjustment = 0 ∧
    (-1000 ≤ initCtrl.current_adjustment ∧ initCtrl.current_adjustment ≤ 1000) :=
  ⟨current_adjustment_in_range.1,
   current_adjustment_in_range.2 initCtrl Reachable.init⟩

/-! ### Claim C5 -/

theorem ncBody_no_main (s : Ctrl) (cp : ControlPilotMode) (l w : Bool) :
    Action.relayMain l w ∉ (ncBody s cp).2 := by
  unfold ncBody
  dsimp only
  split
  · split <;> simp
  · simp

theorem readyBody_main_mem (s : Ctrl) (l w : Bool)
    (hm : Action.relayMain l w ∈ (readyBody s).2) : 6000 < s.max_current := by
  unfold readyBody at hm
  split at hm
  · next hc => exact hc
  · simp at hm

theorem chargingBody_no_main (s : Ctrl) (cp : ControlPilotMode) (total : ℕ) (l w : Bool) :
    Action.relayMain l w ∉ (chargingBody s cp total).2 := by
  unfold chargingBody
  dsimp only
  by_cases hch : s.changing_power = true
  · rw [if_pos hch]
    by_cases h3 : s.three_phase ≠ s.relay3_level
    · rw [if_pos h3]
      dsimp only
      rw [if_neg (by decide : ¬ ((100 : ℤ) = 0))]
      simp
    · rw [if_neg h3]
      dsimp only
      rw [if_neg (by decide : ¬ ((50 : ℤ) = 0))]
      simp
  · rw [if_neg hch]
    dsimp only
    repeat' split
    all_goals simp

theorem stoppingBody_no_main_true (s s' : Ctrl) (cp : ControlPilotMode) (total : ℕ)
    (acts : List Action) (w : Bool) (h : stoppingBody s cp total = some (s', acts)) :
    Action.relayMain true w ∉ acts := by
  unfold stoppingBody at h
  dsimp only at h
  split at h
  · split at h
    · cases cp <;>
        first
          | exact Option.noConfusion h
          | (simp only [Option.some.injEq, Prod.mk.injEq] at h
             rw [← h.2]; simp)
    · simp only [Option.some.injEq, Prod.mk.injEq] at h
      rw [← h.2]; simp
  · simp only [Option.some.injEq, Prod.mk.injEq] at h
    rw [← h.2]; simp

theorem entryActions_no_main_true (s : Ctrl) (w : Bool) :
    Action.relayMain true w ∉ (entryActions s).2 := by
  unfold entryActions
  split
  · cases hs : s.state <;> dsimp only
    case Connected => split <;> simp
    all_goals simp
  · simp

/-- C5: whenever a tick commands the main contactor closed
(`relay_main.set_level(true)`), the controller was in `Ready` with
`max_current > 6000` at the time of the call (after the tick's command drain
and safety check). -/
theorem main_relay_only_from_ready (s : Ctrl) (i : Input) (s2 s' : Ctrl)
    (acts : List Action) (w : Bool)
    (hpre : preBody s i = some s2)
    (hstep : step s i = some (s', acts))
    (hmem : Action.relayMain true w ∈ acts) :
    s2.state = .Ready ∧ 6000 < s2.max_current := by
  unfold step at hstep
  rw [hpre] at hstep
  dsimp only at hstep
  cases hrb : runBody s2 (cpModeOf i.cp_mv) (sum3 i.currents) with
  | none => rw [hrb] at hstep; exact Option.noConfusion hstep
  | some pr =>
    obtain ⟨s3, acts1⟩ := pr
    rw [hrb] at hstep
    dsimp only at hstep
    rcases hea : entryActions { s3 with changing_power := false } with ⟨s5, acts2⟩
    rw [hea] at hstep
    dsimp only at hstep
    simp only [Option.some.injEq, Prod.mk.injEq] at hstep
    rw [← hstep.2] at hmem
    simp only [List.mem_cons, List.mem_append] at hmem
    rcases hmem with hmem | hmem | hmem
    · exact absurd hmem (by simp)
    · unfold runBody at hrb
      cases hs2 : s2.state <;> rw [hs2] at hrb <;> dsimp only at hrb
      case Ready =>
        simp only [Option.some.injEq] at hrb
        have hsnd := congrArg Prod.snd hrb
        dsimp only at hsnd
        rw [← hsnd] at hmem
        exact ⟨rfl, readyBody_main_mem s2 true w hmem⟩
      case NotConnected | Connected =>
        simp only [Option.some.injEq] at hrb
        have hsnd := congrArg Prod.snd hrb
        dsimp only at hsnd
        rw [← hsnd] at hmem
        exact absurd hmem (ncBody_no_main s2 _ true w)
      case Charging =>
        simp only [Option.some.injEq] at hrb
        have hsnd := congrArg Prod.snd hrb
        dsimp only at hsnd
        rw [← hsnd] at hmem
        exact absurd hmem (chargingBody_no_main s2 _ _ true w)
      case Stopping | ShuttingDown =>
        exact absurd hmem (stoppingBody_no_main_true s2 s3 _ _ acts1 w hrb)
      case Error =>
        split at hrb <;>
          (simp only [Option.some.injEq, Prod.mk.injEq] at hrb
           rw [← hrb.2] at hmem
           simp at hmem)
      case Shutdown =>
        simp only [Option.some.injEq, Prod.mk.injEq] at hrb
        rw [← hrb.2] at hmem
        simp at hmem
    · have hsnd := congrArg Prod.snd hea
      dsimp only at hsnd
      rw [← hsnd] at hmem
      exact absurd hmem (entryActions_no_main_true _ w)

/-- A concrete `Ready` state about to close the main relay (reached from
`initCtrl` by the first two ticks of the C3 counterexample trace). -/
def c5Start : Ctrl :=
  { initCtrl with state := .Ready, prev_state := .Ready, status_state := .Ready,
                  max_power := 11000, status_max_power := 11000,
                  max_current := 15942, three_phase := true }

def c5In : Input := ⟨none, 1300, (0, 0, 0), true⟩

def c5End : Ctrl :=
  { c5Start with state := .Charging, prev_state := .Charging,
                 status_state := .Charging, relay3_level := true,
                 relay_main_level := true }

def c5Acts : List Action :=
  [.watchdogReset, .relay3Phase true true, .relayMain true false]

/-- C5 witness: the concrete tick that closes the main relay. -/
theorem main_relay_only_from_ready_witness :
    c5Start.state = PhiEvseState.Ready ∧ 6000 < c5Start.max_current :=
  main_relay_only_from_ready c5Start c5In c5Start c5End c5Acts false
    (by decide) (by decide) (by decide)


/-! ### Claim C6 -/

theorem entryActions_error_acts (s : Ctrl) (hne : s.prev_state ≠ s.state)
    (hst : s.state = .Error) :
    (entryActions s).2 =
      [.setCP .Error, .relayMain false true, .relay3Phase false false] := by
  unfold entryActions
  rw [if_pos hne, hst]

/-- Every step keeps the `prev_state = state` coupling the entry-action block
re-establishes at the end of each tick (it holds at `initCtrl` too), so the
hypothesis of the C6 theorem is available at every reachable state. -/
theorem reachable_prev_eq (s : Ctrl) (h : Reachable s) : s.prev_state = s.state := by
  induction h with
  | init => rfl
  | tick hr hstep ih => exact (step_keeps _ _ _ _ hstep).2

/-- C6: on every tick whose state changes to `Error` from any other state,
the entry actions signal CP `Error` (0 % duty), open the main relay with the
blocking settle wait, and open the three-phase selector relay, all before the
tick completes. -/
theorem error_entry_opens_relays (s : Ctrl) (i : Input) (s' : Ctrl)
    (acts : List Action)
    (hprev : s.prev_state = s.state)
    (hstep : step s i = some (s', acts))
    (hnew : s'.state = .Error) (hold : s.state ≠ .Error) :
    Action.setCP .Error ∈ acts ∧ Action.relayMain false true ∈ acts ∧
    Action.relay3Phase false false ∈ acts ∧ set_control_pilot_duty .Error = 0 := by
  unfold step at hstep
  cases hpb : preBody s i with
  | none => rw [hpb] at hstep; exact Option.noConfusion hstep
  | some s2 =>
    rw [hpb] at hstep
    dsimp only at hstep
    cases hrb : runBody s2 (cpModeOf i.cp_mv) (sum3 i.currents) with
    | none => rw [hrb] at hstep; exact Option.noConfusion hstep
    | some pr =>
      obtain ⟨s3, acts1⟩ := pr
      rw [hrb] at hstep
      dsimp only at hstep
      rcases hea : entryActions { s3 with changing_power := false } with ⟨s5, acts2⟩
      rw [hea] at hstep
      dsimp only at hstep
      simp only [Option.some.injEq, Prod.mk.injEq] at hstep
      obtain ⟨h5, hacts⟩ := hstep
      have hef := entryActions_fst ({ s3 with changing_power := false } : Ctrl)
      rw [hea] at hef
      dsimp only at hef
      have hs4state : ({ s3 with changing_power := false } : Ctrl).state = PhiEvseState.Error := by
        rw [← hef.1, h5]
        exact hnew
      have hs4prev : ({ s3 with changing_power := false } : Ctrl).prev_state = s.state := by
        show s3.prev_state = s.state
        rw [(runBody_keeps s2 s3 _ _ _ hrb).2, (preBody_keeps s i s2 hpb).2, hprev]
      have hne : ({ s3 with changing_power := false } : Ctrl).prev_state ≠
          ({ s3 with changing_power := false } : Ctrl).state := by
        rw [hs4prev, hs4state]
        exact hold
      have hacts2 := entryActions_error_acts _ hne hs4state
      have hsnd := congrArg Prod.snd hea
      dsimp only at hsnd
      rw [hsnd] at hacts2
      rw [← hacts, hacts2]
      refine ⟨?_, ?_, ?_, rfl⟩ <;> simp

/-- C6 witness: a concrete `Charging` tick in which the CP negative rail
reads low; the safety check forces `Error` and the entry actions run. -/
theorem error_entry_opens_relays_witness :
    Action.setCP .Error ∈
      ([.watchdogReset, .setCP .Error, .relayMain false true,
        .relay3Phase false false] : List Action) ∧
    Action.relayMain false true ∈
      ([.watchdogReset, .setCP .Error, .relayMain false true,
        .relay3Phase false false] : List Action) ∧
    Action.relay3Phase false false ∈
      ([.watchdogReset, .setCP .Error, .relayMain false true,
        .relay3Phase false false] : List Action) ∧
    set_control_pilot_duty .Error = 0 :=
  error_entry_opens_relays
    { initCtrl with state := .Charging, prev_state := .Charging,
                    status_state := .Charging, relay_main_level := true }
    ⟨none, 1300, (0, 0, 0), false⟩
    { initCtrl with state := .Error, prev_state := .Error,
                    status_state := .Error, status_power := 0 }
    [.watchdogReset, .setCP .Error, .relayMain false true, .relay3Phase false false]
    rfl (by decide) rfl (by decide)


/-! ### Claim C9: accuracy of the five-iteration Newton square root

`sqrtStep`/`sqrt` above are the faithful `i32` embedding.  `nstep` is a
`ℕ`-valued computational twin (proved equal on the relevant inputs by
`sqrtStep_cast`), about which the Newton analysis is carried out:
`sqrt_le_nstep` (one step never lands below `⌊√n⌋`, the integer AM-GM),
`nstep_mono_n`/`nstep_mono_x` (monotonicity in `n`, and in `x` above `√n`),
and a per-`⌊√n⌋`-block interval upper bound `ubChain` checked by `decide`
over the 581 blocks covering `[4900, 422500]`. -/

/-- Computational twin of `sqrtStep` on `ℕ` (the two `tdiv`s collapse to one
floor division by `2 * x` on each sign case). -/
def nstep (n x : ℕ) : ℕ :=
  if n ≤ x * x then x - (x * x - n) / (2 * x) else x + (n - x * x) / (2 * x)

/-- Computational twin of the five-iteration `sqrt` body. -/
def nsqrtIter (n : ℕ) : ℕ :=
  nstep n (nstep n (nstep n (nstep n (nstep n 270))))

/-- One step of the per-block interval upper bound. -/
def ubStep (nb t u : ℕ) : ℕ := max (nstep nb (max u (t + 1))) (t + 1)

/-- The interval upper bound for the five Newton iterations over the block of
inputs whose integer square root is `t`, with block upper end `nb`. -/
def ubChain (nb t : ℕ) : ℕ :=
  ubStep nb t (ubStep nb t (ubStep nb t (ubStep nb t (nstep nb 270))))

/-- The per-block certificate: the interval upper bound stays within
`t + 1`. -/
def blockOk (t : ℕ) : Bool :=
  decide (ubChain (min (t * t + 2 * t) 422500) t ≤ t + 1)

theorem blocks_ok : natRangeAll blockOk 11 70 651 = true := by decide

theorem div_le_div_cross {A B C D : ℕ} (hB : 0 < B) (hD : 0 < D)
    (h : A * D ≤ C * B) : A / B ≤ C / D := by
  rw [Nat.le_div_iff_mul_le hD]
  have h1 : A / B * B * D ≤ C * B :=
    le_trans (Nat.mul_le_mul_right D (Nat.div_mul_le_self A B)) h
  have h2 : A / B * D * B ≤ C * B := by
    rw [Nat.mul_right_comm] at h1
    exact h1
  exact Nat.le_of_mul_le_mul_right h2 hB

/-- Integer AM-GM: a Newton step from any positive `x` lands at or above
`⌊√n⌋`. -/
theorem sqrt_le_nstep (n x : ℕ) (hn : 1 ≤ n) (hx : 1 ≤ x) :
    Nat.sqrt n ≤ nstep n x := by
  unfold nstep
  by_cases h : n ≤ x * x
  · rw [if_pos h]
    set s := Nat.sqrt n with hs
    set q := (x * x - n) / (2 * x) with hq
    have h1 : q * (2 * x) ≤ x * x - n := Nat.div_mul_le_self _ _
    have h1' : q * (2 * x) + n ≤ x * x := by omega
    have hss : s * s ≤ n := Nat.sqrt_le n
    have h2 : 2 * x * s ≤ x * x + n := by
      nlinarith [two_mul_le_add_sq x s]
    have h3 : 2 * x * (s + q) ≤ 2 * x * x := by nlinarith [h1', h2]
    have h4 : s + q ≤ x := Nat.le_of_mul_le_mul_left h3 (by omega)
    omega
  · rw [if_neg h]
    push_neg at h
    set s := Nat.sqrt n with hs
    set q := (n - x * x) / (2 * x) with hq
    have hxx : x * x ≤ n := le_of_lt h
    have hub : n - x * x < (n - x * x) / (2 * x) * (2 * x) + 2 * x :=
      Nat.lt_div_mul_add (by omega)
    rw [← hq] at hub
    have hub' : n < x * x + q * (2 * x) + 2 * x := by omega
    by_contra hc
    push_neg at hc
    have hss : s * s ≤ n := Nat.sqrt_le n
    have hkey : (x + q + 1) * (x + q + 1) ≤ s * s :=
      Nat.mul_le_mul (by omega) (by omega)
    nlinarith [hub', hss, hkey]

/-- A Newton step is monotone in `n` for a fixed positive `x`. -/
theorem nstep_mono_n (x n1 n2 : ℕ) (hx : 1 ≤ x) (h : n1 ≤ n2) :
    nstep n1 x ≤ nstep n2 x := by
  unfold nstep
  by_cases h1 : n1 ≤ x * x <;> by_cases h2 : n2 ≤ x * x
  · rw [if_pos h1, if_pos h2]
    exact Nat.sub_le_sub_left (Nat.div_le_div_right (by omega)) x
  · rw [if_pos h1, if_neg h2]
    exact le_trans (Nat.sub_le x _) (Nat.le_add_right x _)
  · omega
  · rw [if_neg h1, if_neg h2]
    exact Nat.add_le_add_left (Nat.div_le_div_right (by omega)) x

/-- A Newton step is monotone in `x` on `x ≥ √n`. -/
theorem nstep_mono_x (n x1 x2 : ℕ) (h1x : 1 ≤ x1) (hn : n ≤ x1 * x1)
    (hx : x1 ≤ x2) : nstep n x1 ≤ nstep n x2 := by
  have hn2 : n ≤ x2 * x2 := le_trans hn (Nat.mul_le_mul hx hx)
  unfold nstep
  rw [if_pos hn, if_pos hn2]
  set q1 := (x1 * x1 - n) / (2 * x1) with hq1
  set q2 := (x2 * x2 - n) / (2 * x2) with hq2
  have hq1x : q1 ≤ x1 := by
    calc q1 ≤ x1 * x1 / (2 * x1) := Nat.div_le_div_right (Nat.sub_le _ _)
    _ ≤ x1 := Nat.div_le_of_le_mul (by nlinarith)
  have hcross : q2 ≤ q1 + (x2 - x1) := by
    have hident : (x1 * x1 - n + 2 * x1 * (x2 - x1)) / (2 * x1) = q1 + (x2 - x1) := by
      rw [hq1]
      exact Nat.add_mul_div_left _ _ (by omega)
    rw [← hident]
    apply div_le_div_cross (by omega) (by omega)
    have hxz : (x1 : ℤ) ≤ (x2 : ℤ) := by exact_mod_cast hx
    have hnz : (n : ℤ) ≤ (x1 : ℤ) * (x1 : ℤ) := by exact_mod_cast hn
    have hx1nn : (0 : ℤ) ≤ (x1 : ℤ) := by positivity
    have hx12 : (n : ℤ) ≤ (x1 : ℤ) * (x2 : ℤ) := by nlinarith
    have hfact : (0 : ℤ) ≤ ((x2 : ℤ) - x1) * ((x1 : ℤ) * x2 - n) :=
      mul_nonneg (by linarith) (by linarith)
    zify [hn, hn2, hx]
    nlinarith [hfact]
  omega


/-- Interval upper bound for one Newton step over a block: if `x` is an
iterate for some `n` in the block `{m | Nat.sqrt m = t}` with `n ≤ nb`,
`Nat.sqrt nb = t`, and `x ≤ u` with `nb ≤ u * u`, then the next iterate is
bounded by `max (nstep nb u) (t + 1)`. -/
theorem nstep_upper (n nb x u t : ℕ) (ht : Nat.sqrt n = t) (htb : Nat.sqrt nb = t)
    (h1t : 1 ≤ t) (hxl : t ≤ x) (hxu : x ≤ u) (hn : n ≤ nb) (hu : nb ≤ u * u) :
    nstep n x ≤ max (nstep nb u) (t + 1) := by
  by_cases hxx : nb ≤ x * x
  · exact le_trans (le_trans (nstep_mono_n x n nb (by omega) hn)
      (nstep_mono_x nb x u (by omega) hxx hxu)) (le_max_left _ _)
  · push_neg at hxx
    have hxt : x = t := by
      have hlt : nb < (t + 1) * (t + 1) := by
        rw [← htb]; exact Nat.lt_succ_sqrt nb
      have hx2 : x * x < (t + 1) * (t + 1) := lt_trans hxx hlt
      have hxlt : x < t + 1 := by
        by_contra hcc
        push_neg at hcc
        exact absurd hx2 (not_lt.2 (Nat.mul_le_mul hcc hcc))
      omega
    subst hxt
    refine le_trans ?_ (le_max_right _ _)
    unfold nstep
    by_cases hnt : n ≤ x * x
    · rw [if_pos hnt]
      exact le_trans (Nat.sub_le _ _) (Nat.le_succ _)
    · rw [if_neg hnt]
      push_neg at hnt
      have hsucc := Nat.lt_succ_sqrt n
      rw [ht] at hsucc
      have hn2t : n ≤ x * x + 2 * x := by nlinarith
      have hdiv : (n - x * x) / (2 * x) ≤ 1 := by
        calc (n - x * x) / (2 * x) ≤ 2 * x / (2 * x) :=
              Nat.div_le_div_right (by omega)
        _ = 1 := Nat.div_self (by omega)
      omega

/-- One link of the per-block chain: the next iterate stays at or above `t`
and below the next `ubStep`. -/
theorem ubStep_bound (n nb t x u : ℕ) (ht : Nat.sqrt n = t) (htb : Nat.sqrt nb = t)
    (h1t : 1 ≤ t) (hxl : t ≤ x) (hxu : x ≤ u) (hn : n ≤ nb)
    (hnb : nb ≤ t * t + 2 * t) (h1n : 1 ≤ n) :
    t ≤ nstep n x ∧ nstep n x ≤ ubStep nb t u := by
  constructor
  · rw [← ht]
    exact sqrt_le_nstep n x h1n (by omega)
  · unfold ubStep
    apply nstep_upper n nb x (max u (t + 1)) t ht htb h1t hxl
      (le_trans hxu (le_max_left _ _)) hn
    have h1 : t + 1 ≤ max u (t + 1) := le_max_right _ _
    have h2 : nb ≤ (t + 1) * (t + 1) := by nlinarith
    exact le_trans h2 (Nat.mul_le_mul h1 h1)

/-- The five-iteration Newton twin lands within `[⌊√n⌋, ⌊√n⌋ + 1]` on the
meter's operating range. -/
theorem nsqrtIter_bounds (n : ℕ) (h1 : 4900 ≤ n) (h2 : n ≤ 422500) :
    Nat.sqrt n ≤ nsqrtIter n ∧ nsqrtIter n ≤ Nat.sqrt n + 1 := by
  set t := Nat.sqrt n with ht
  have h1n : 1 ≤ n := by omega
  have ht70 : 70 ≤ t := by
    rw [ht]
    exact Nat.le_sqrt.2 (by omega)
  have hsq650 : Nat.sqrt 422500 = 650 := (Nat.eq_sqrt.2 ⟨by omega, by omega⟩).symm
  have ht650 : t ≤ 650 := by
    rw [ht, ← hsq650]
    exact Nat.sqrt_le_sqrt h2
  have hsucc := Nat.lt_succ_sqrt n
  rw [← ht] at hsucc
  have hnle : n ≤ t * t + 2 * t := by nlinarith
  set nb := min (t * t + 2 * t) 422500 with hnb
  have hn_nb : n ≤ nb := le_min hnle h2
  have hnb_le : nb ≤ t * t + 2 * t := min_le_left _ _
  have htb : Nat.sqrt nb = t := by
    refine le_antisymm ?_ ?_
    · have hs : Nat.sqrt nb ≤ Nat.sqrt (t * t + 2 * t) := Nat.sqrt_le_sqrt hnb_le
      have hlt : Nat.sqrt (t * t + 2 * t) < t + 1 := Nat.sqrt_lt.2 (by nlinarith)
      omega
    · rw [ht]
      exact Nat.sqrt_le_sqrt hn_nb
  have hbl : blockOk t = true :=
    natRangeAll_spec blockOk 11 70 651 blocks_ok t ht70 (by omega)
  unfold blockOk at hbl
  rw [← hnb] at hbl
  have hchain : ubChain nb t ≤ t + 1 := of_decide_eq_true hbl
  have hx1l : t ≤ nstep n 270 := by
    rw [ht]
    exact sqrt_le_nstep n 270 h1n (by omega)
  have hx1u : nstep n 270 ≤ nstep nb 270 := nstep_mono_n 270 n nb (by omega) hn_nb
  have hb2 := ubStep_bound n nb t (nstep n 270) (nstep nb 270)
    ht htb (by omega) hx1l hx1u hn_nb hnb_le h1n
  have hb3 := ubStep_bound n nb t (nstep n (nstep n 270))
    (ubStep nb t (nstep nb 270)) ht htb (by omega) hb2.1 hb2.2 hn_nb hnb_le h1n
  have hb4 := ubStep_bound n nb t (nstep n (nstep n (nstep n 270)))
    (ubStep nb t (ubStep nb t (nstep nb 270)))
    ht htb (by omega) hb3.1 hb3.2 hn_nb hnb_le h1n
  have hb5 := ubStep_bound n nb t (nstep n (nstep n (nstep n (nstep n 270))))
    (ubStep nb t (ubStep nb t (ubStep nb t (nstep nb 270))))
    ht htb (by omega) hb4.1 hb4.2 hn_nb hnb_le h1n
  constructor
  · rw [ht] at hb5 ⊢
    exact hb5.1
  · refine le_trans hb5.2 ?_
    rw [ht] at hchain ⊢
    exact hchain


theorem tdiv_coe (a b : ℕ) : ((a : ℤ)).tdiv (b : ℤ) = ((a / b : ℕ) : ℤ) :=
  (Int.ofNat_tdiv a b).symm

/-- The faithful `i32` Newton step agrees with its `ℕ` twin on positive
iterates. -/
theorem sqrtStep_cast (n x : ℕ) (hx : 1 ≤ x) :
    sqrtStep (n : ℤ) (x : ℤ) = ((nstep n x : ℕ) : ℤ) := by
  unfold sqrtStep nstep
  by_cases h : n ≤ x * x
  · rw [if_pos h]
    have hcast : (x : ℤ) * (x : ℤ) - (n : ℤ) = ((x * x - n : ℕ) : ℤ) := by
      push_cast [h]
      ring
    rw [hcast]
    rw [show (2 : ℤ) = ((2 : ℕ) : ℤ) from rfl, tdiv_coe, tdiv_coe]
    rw [Nat.div_div_eq_div_mul]
    have hq : (x * x - n) / (2 * x) ≤ x := by
      calc (x * x - n) / (2 * x) ≤ x * x / (2 * x) :=
            Nat.div_le_div_right (Nat.sub_le _ _)
      _ ≤ x := Nat.div_le_of_le_mul (by nlinarith)
    push_cast [hq]
    ring
  · rw [if_neg h]
    push_neg at h
    have hcast : (x : ℤ) * (x : ℤ) - (n : ℤ) = -((n - x * x : ℕ) : ℤ) := by
      have h' : x * x ≤ n := le_of_lt h
      push_cast [h']
      ring
    rw [hcast]
    rw [show (2 : ℤ) = ((2 : ℕ) : ℤ) from rfl, Int.neg_tdiv, tdiv_coe,
        Int.neg_tdiv, tdiv_coe]
    rw [Nat.div_div_eq_div_mul]
    push_cast
    ring

/-- The source `sqrt` agrees with the `ℕ` twin `nsqrtIter` for every `n ≥ 2`. -/
theorem sqrt_cast (n : ℕ) (h2 : 2 ≤ n) : sqrt (n : ℤ) = ((nsqrtIter n : ℕ) : ℤ) := by
  have h1n : 1 ≤ n := by omega
  have hs1 : 1 ≤ Nat.sqrt n := Nat.le_sqrt.2 (by omega)
  have p1 : 1 ≤ nstep n 270 := le_trans hs1 (sqrt_le_nstep n 270 h1n (by omega))
  have p2 : 1 ≤ nstep n (nstep n 270) := le_trans hs1 (sqrt_le_nstep n _ h1n p1)
  have p3 : 1 ≤ nstep n (nstep n (nstep n 270)) :=
    le_trans hs1 (sqrt_le_nstep n _ h1n p2)
  have p4 : 1 ≤ nstep n (nstep n (nstep n (nstep n 270))) :=
    le_trans hs1 (sqrt_le_nstep n _ h1n p3)
  unfold sqrt nsqrtIter
  rw [if_neg (by exact_mod_cast not_lt.2 (by omega : 2 ≤ n))]
  rw [show (270 : ℤ) = ((270 : ℕ) : ℤ) from rfl]
  rw [sqrtStep_cast n 270 (by omega), sqrtStep_cast n _ p1, sqrtStep_cast n _ p2,
      sqrtStep_cast n _ p3, sqrtStep_cast n _ p4]

/-- C9: for every `n` in the meter's operating range `[4900, 422500]`, the
source's five-iteration Newton `sqrt` seeded at 270 is within 1 of the true
integer square root `⌊√n⌋`. -/
theorem sqrt_within_one_of_isqrt (n : ℕ) (h1 : 4900 ≤ n) (h2 : n ≤ 422500) :
    (sqrt (n : ℤ) - (Nat.sqrt n : ℤ)).natAbs ≤ 1 := by
  rw [sqrt_cast n (by omega)]
  have hb := nsqrtIter_bounds n h1 h2
  omega

/-- C9 witness at `n = 10000` (a 100 mV RMS reading). -/
theorem sqrt_within_one_witness :
    (sqrt ((10000 : ℕ) : ℤ) - (Nat.sqrt 10000 : ℤ)).natAbs ≤ 1 :=
  sqrt_within_one_of_isqrt 10000 (by omega) (by omega)

end PhiEvse
